import Mathlib

/-!
Shallow embedding of `cli/shim.go` from the runv repository: the shim
command action, the stdio proxy, the signal forwarder, pid-file creation
and shim process launching, together with theorems checking the
natural-language specification against this embedding.
-/

namespace RunvShim

/-! ## Signals

`os.Signal` values are either `syscall.Signal` numbers or some other
implementation of the interface (which the forwarding loop cannot
translate).  Linux numbers: SIGCHLD = 17, SIGPIPE = 13, SIGWINCH = 28,
SIGUSR1 = 10. -/

def SIGCHLD : Nat := 17
def SIGPIPE : Nat := 13
def SIGWINCH : Nat := 28
def SIGUSR1 : Nat := 10

inductive OsSignal where
  | sys (n : Nat)
  | unknown (name : String)
deriving DecidableEq, Repr

/-! ## forwardAllSignals

`forwardAllSignals` makes a channel of capacity 2048, registers it for
all signals via `signal.Notify(sigc)`, then calls
`signal.Ignore(syscall.SIGCHLD, syscall.SIGPIPE)`, which removes those
two signals from the subscription so they no longer enter the buffer.
The consuming goroutine then filters and forwards. -/

structure ForwarderSetup where
  capacity : Nat
  notifyAll : Bool
  ignored : List Nat
deriving DecidableEq, Repr

def forwardAllSignals_setup : ForwarderSetup :=
  { capacity := 2048, notifyAll := true, ignored := [SIGCHLD, SIGPIPE] }

/-- Signals delivered to the host that actually enter the buffered
channel: `signal.Ignore(SIGCHLD, SIGPIPE)` keeps those two out. -/
def bufferedSignals (delivered : List OsSignal) : List OsSignal :=
  delivered.filter (fun s =>
    match s with
    | .sys n => decide (¬ (n = SIGCHLD ∨ n = SIGPIPE))
    | .unknown _ => true)

/-- Events produced by the consuming loop of `forwardAllSignals`. -/
inductive FwdEvent where
  | forward (n : Nat) (ok : Bool)
  | logUnknown (name : String)
  | logForwardError (n : Nat)
deriving DecidableEq, Repr

/-- One iteration of the `for s := range sigc` loop body. -/
def forwardLoopBody (agentOk : Nat → Bool) (s : OsSignal) : List FwdEvent :=
  match s with
  | .sys n =>
    if n = SIGCHLD ∨ n = SIGPIPE ∨ n = SIGWINCH then
      []
    else if agentOk n then
      [.forward n true]
    else
      [.forward n false, .logForwardError n]
  | .unknown name => [.logUnknown name]

/-- The whole consuming loop over the signals received from the channel:
every iteration runs to completion (`continue`, never `break`/`return`). -/
def forwardLoop (agentOk : Nat → Bool) : List OsSignal → List FwdEvent
  | [] => []
  | s :: rest => forwardLoopBody agentOk s ++ forwardLoop agentOk rest

/-- The signal numbers actually forwarded (`h.SignalProcess` calls),
in order, extracted from the loop's events. -/
def forwardedNumbers (evs : List FwdEvent) : List Nat :=
  evs.filterMap (fun e =>
    match e with
    | .forward n _ => some n
    | _ => none)

/-! ## The shim command action

`shimCommand.Action` connects to the agent, waits for SIGUSR1 when the
process id is `"init"`, starts the requested proxies, then blocks in
`h.WaitProcess` and decides its own exit status.  We record the action
as a trace of events plus a `cli` result.  Deferred calls
(`signal.Stop`, `term.RestoreTerminal`, `wg.Wait`) run in reverse
registration order after the return value is computed. -/

structure ShimFlags where
  proxyStdio : Bool
  proxyWinsize : Bool
  proxySignal : Bool
  proxyExitCode : Bool
deriving DecidableEq, Repr

inductive ShimEvent where
  | connectAgent
  | subscribeSigUsr1
  | recvSigUsr1
  | unsubscribeSigUsr1
  | startStdioProxy
  | setRawTerminal
  | startWinsizeMonitor
  | startSignalForwarder
  | waitProcess (exitcode : Int)
  | stopSignalForwarder
  | restoreTerminal
  | wgWait
deriving DecidableEq, Repr

/-- Result of a `cli` action: `ok` is a `nil` return (exit status 0),
`exitError msg code` is `cli.NewExitError(msg, code)`. -/
inductive CliResult where
  | ok
  | exitError (msg : String) (code : Int)
deriving DecidableEq, Repr

/-- The `if process == "init"` block: subscribe to SIGUSR1, block for
one signal, unsubscribe. -/
def initWaitSeg (process : String) : List ShimEvent :=
  if process = "init" then
    [.subscribeSigUsr1, .recvSigUsr1, .unsubscribeSigUsr1]
  else []

/-- Proxy activations, in source order (stdio, winsize, signal),
assuming `term.SetRawTerminal` succeeds when needed. -/
def proxySeg (flags : ShimFlags) : List ShimEvent :=
  (if flags.proxyStdio then [.startStdioProxy] else []) ++
  (if flags.proxyWinsize then [.setRawTerminal, .startWinsizeMonitor] else []) ++
  (if flags.proxySignal then [.startSignalForwarder] else [])

/-- Deferred teardown, in reverse registration order. -/
def teardownSeg (flags : ShimFlags) : List ShimEvent :=
  (if flags.proxySignal then [.stopSignalForwarder] else []) ++
  (if flags.proxyWinsize then [.restoreTerminal] else []) ++
  (if flags.proxyStdio then [.wgWait] else [])

/-- The shim action: the event trace and the returned `cli` result.
`connectOk` tells whether `agent.NewKataAgent` succeeds, `rawOk`
whether `term.SetRawTerminal` succeeds (consulted only when winsize
proxying is requested).  On the raw-terminal failure the function
returns early; only the deferred calls registered so far (the stdio
`wg.Wait`) run. -/
def shimAction (flags : ShimFlags) (process : String)
    (connectOk rawOk : Bool) (exitcode : Int) : List ShimEvent × CliResult :=
  if connectOk = false then
    ([], .exitError "failed to connect to hyperstart proxy" (-1))
  else if flags.proxyWinsize ∧ rawOk = false then
    ([ShimEvent.connectAgent] ++ initWaitSeg process ++
       (if flags.proxyStdio then [ShimEvent.startStdioProxy] else []) ++
       [ShimEvent.setRawTerminal] ++
       (if flags.proxyStdio then [ShimEvent.wgWait] else []),
     .exitError "failed to set raw terminal" (-1))
  else
    ([ShimEvent.connectAgent] ++ initWaitSeg process ++ proxySeg flags ++
       [ShimEvent.waitProcess exitcode] ++ teardownSeg flags,
     if flags.proxyExitCode then
       if exitcode ≠ 0 then .exitError "" exitcode else .ok
     else .ok)

/-- Proxying activity events (stdio, winsize, signal). -/
def isProxyActivity : ShimEvent → Bool
  | .startStdioProxy => true
  | .setRawTerminal => true
  | .startWinsizeMonitor => true
  | .startSignalForwarder => true
  | _ => false

/-! ## proxyStdio

`proxyStdio` adds 2 to the wait group, obtains the three remote stream
endpoints and spawns three goroutines.  The stdin goroutine copies
local stdin to the remote stdin pipe, then calls `h.CloseStdin` and
logs; it never touches the wait group.  The stdout and stderr
goroutines copy the remote source to the local stream, log, and call
`wg.Done()`.  A copy can end cleanly (local EOF, remote close) or with
a read or write error; `io.Copy` returns in every such case. -/

inductive CopyEnd where
  | eof
  | readError (msg : String)
  | writeError (msg : String)
deriving DecidableEq, Repr

inductive StdioEvent where
  | copyDone (stream : String) (res : CopyEnd)
  | closeStdinCall (ok : Bool)
  | log (stream : String)
  | wgDone
deriving DecidableEq, Repr

/-- Body of the stdin-copying goroutine: after `io.Copy(inPipe,
os.Stdin)` returns (for whatever reason), `h.CloseStdin` is called and
both results are logged. -/
def stdinGoroutine (copyRes : CopyEnd) (closeOk : Bool) : List StdioEvent :=
  [.copyDone "stdin" copyRes, .closeStdinCall closeOk, .log "stdin"]

/-- Body of the stdout-copying goroutine. -/
def stdoutGoroutine (copyRes : CopyEnd) : List StdioEvent :=
  [.copyDone "stdout" copyRes, .log "stdout", .wgDone]

/-- Body of the stderr-copying goroutine. -/
def stderrGoroutine (copyRes : CopyEnd) : List StdioEvent :=
  [.copyDone "stderr" copyRes, .log "stderr", .wgDone]

/-- The wait-group count contributed by `proxyStdio` before spawning:
`wg.Add(2)`. -/
def proxyStdio_wgAdd : Nat := 2

/-- Number of `closeStdinCall` events in a goroutine's event list. -/
def closeStdinCount (evs : List StdioEvent) : Nat :=
  (evs.filter (fun e =>
    match e with
    | .closeStdinCall _ => true
    | _ => false)).length

/-- Number of `wgDone` events in a goroutine's event list. -/
def wgDoneCount (evs : List StdioEvent) : Nat :=
  (evs.filter (fun e => e = StdioEvent.wgDone)).length

/-! ## createPidFile

`createPidFile(path, pid)` computes the temporary name
`filepath.Join(filepath.Dir(path), "." + filepath.Base(path))`, opens
it with `O_RDWR|O_CREATE|O_EXCL|O_SYNC` (failing if that name already
exists), writes `fmt.Fprintf(f, "%d", pid)` — decimal digits, no
newline — closes, and renames the temporary file onto `path`
(`os.Rename` replaces an existing target atomically).

The filesystem is a finite map from paths to contents; a path is its
directory plus its base name. -/

structure GoPath where
  dir : String
  base : String
deriving DecidableEq, Repr

def tmpNameOf (path : GoPath) : GoPath :=
  { dir := path.dir, base := "." ++ path.base }

/-- A directory's contents: association list from paths to file
contents. -/
def FS : Type := List (GoPath × String)

instance : DecidableEq FS := by
  unfold FS
  infer_instance

def FS.lookup (fs : FS) (p : GoPath) : Option String :=
  match fs with
  | [] => none
  | (q, c) :: rest => if q = p then some c else FS.lookup rest p

def FS.set (fs : FS) (p : GoPath) (c : String) : FS :=
  match fs with
  | [] => [(p, c)]
  | (q, d) :: rest => if q = p then (q, c) :: rest else (q, d) :: FS.set rest p c

def FS.remove (fs : FS) (p : GoPath) : FS :=
  match fs with
  | [] => []
  | (q, d) :: rest => if q = p then FS.remove rest p else (q, d) :: FS.remove rest p

/-- `os.OpenFile` with `O_CREATE|O_EXCL`: errors if the path exists,
otherwise creates it empty. -/
def openExcl (fs : FS) (p : GoPath) : Except String FS :=
  match fs.lookup p with
  | some _ => .error "file exists"
  | none => .ok (fs.set p "")

/-- `os.Rename src dst`: errors if `src` is missing, otherwise
atomically moves `src` onto `dst` (replacing any existing `dst`). -/
def rename (fs : FS) (src dst : GoPath) : Except String FS :=
  match fs.lookup src with
  | none => .error "no such file"
  | some c => .ok ((fs.remove src).set dst c)

/-- `createPidFile`, returning the final result together with every
intermediate filesystem state (after each mutating step), oldest
first — the states a concurrent reader could observe.  `writeOk`
models whether the `Fprintf` write succeeds. -/
def createPidFile (fs : FS) (path : GoPath) (pid : Nat) (writeOk : Bool) :
    Except String FS × List FS :=
  let tmpName := tmpNameOf path
  match openExcl fs tmpName with
  | .error e => (.error e, [fs])
  | .ok fs1 =>
    if writeOk then
      let fs2 := fs1.set tmpName (Nat.repr pid)
      match rename fs2 tmpName path with
      | .error e => (.error e, [fs, fs1, fs2])
      | .ok fs3 => (.ok fs3, [fs, fs1, fs2, fs3])
    else
      (.error "write failed", [fs, fs1])

/-! ## createShim

`createShim(options, container, process, spec)` attaches a console
(none / explicit device / pty pair over a console socket), prepares the
shim binary and arguments (self-delegate `runv shim` or the external
kata shim), builds an `exec.Cmd` with the session attributes, spawns it
(inside an existing container's network namespace or with a fresh one),
and finally persists the pid when a pid-file path is configured,
killing the child if persistence fails.

Fallible OS operations are oracles in `ShimWorld`; the run is recorded
as a trace of `LaunchEvent`s (deferred `tty.Close()` runs at function
return, and only once registered). -/

structure RunvOptions where
  console : String
  consoleSocket : String
  agent : String
  root : String
  logDir : String
  debug : Bool
  attach : Bool
  withContainer : Option Nat
  pidFile : String
deriving DecidableEq, Repr

structure ProcessSpec where
  terminal : Bool
deriving DecidableEq, Repr

structure ShimWorld where
  openConsoleOk : Bool
  ptyOpenOk : Bool
  sendttyOk : Bool
  executableOk : Bool
  selfPath : String
  startOk : Bool
  childPid : Nat
  pidFileOk : Bool
deriving DecidableEq, Repr

inductive LaunchEvent where
  | openConsole (path : String)
  | ptyOpen
  | sendtty (socket : String)
  | closePtyMaster
  | start
  | startInNamespace (pid : Nat)
  | writePidFile (path : String) (pid : Nat)
  | killChild (pid : Nat)
  | closeTty
deriving DecidableEq, Repr

/-- `prepareKataShim`: fixed binary path, kata-shim argument list;
never fails. -/
def prepareKataShim (options : RunvOptions) (container process : String)
    (terminal : Bool) : Except String (String × List String) :=
  let args0 := ["kata-shim"]
  let args1 := if options.debug then args0 ++ ["--log", "debug"] else args0
  let agentAddr := options.root ++ "/" ++ container ++ "/sandbox/kata-agent.sock"
  let args2 := args1 ++ ["--agent", agentAddr, "--container", container,
    "--exec-id", process]
  let args3 := if terminal then args2 ++ ["--terminal"] else args2
  .ok ("/usr/libexec/kata-containers/kata-shim", args3)

/-- `prepareRunvShim`: self path via `osext.Executable()` (can fail),
then the `runv … shim …` argument list with the three proxy flags and
`--proxy-winsize` iff a terminal is requested. -/
def prepareRunvShim (options : RunvOptions) (container process : String)
    (terminal : Bool) (w : ShimWorld) : Except String (String × List String) :=
  if ¬ w.executableOk then
    .error "cannot find self executable path"
  else
    let args0 := ["runv", "--root", options.root]
    let args1 := if options.logDir ≠ "" then
        args0 ++ ["--log_dir", options.logDir ++ "/shim-" ++ container]
      else args0
    let args2 := if options.debug then args1 ++ ["--debug"] else args1
    let args3 := args2 ++ ["shim", "--container", container, "--process", process]
    let args4 := args3 ++ ["--proxy-stdio", "--proxy-exit-code", "--proxy-signal"]
    let args5 := if terminal then args4 ++ ["--proxy-winsize"] else args4
    .ok (w.selfPath, args5)

/-- The `exec.Cmd` configuration built by `createShim`, as far as the
session/namespace policy is concerned. -/
structure CmdConfig where
  path : String
  args : List String
  setctty : Bool
  setsid : Bool
  cloneNewNet : Bool
  ttyAsStdio : Bool
deriving DecidableEq, Repr

def exceptDecEq {ε α : Type} [DecidableEq ε] [DecidableEq α] :
    (a b : Except ε α) → Decidable (a = b)
  | .ok x, .ok y =>
    if h : x = y then .isTrue (congrArg Except.ok h)
    else .isFalse (fun hc => h (Except.ok.inj hc))
  | .error x, .error y =>
    if h : x = y then .isTrue (congrArg Except.error h)
    else .isFalse (fun hc => h (Except.error.inj hc))
  | .ok _, .error _ => .isFalse (fun hc => Except.noConfusion hc)
  | .error _, .ok _ => .isFalse (fun hc => Except.noConfusion hc)

instance {ε α : Type} [DecidableEq ε] [DecidableEq α] : DecidableEq (Except ε α) :=
  exceptDecEq

/-- Result of a `createShim` run: the returned value, the event trace,
and the `exec.Cmd` configuration when the run got as far as building
it. -/
structure CreateShimRun where
  result : Except String Nat
  events : List LaunchEvent
  cmd : Option CmdConfig
deriving DecidableEq, Repr

/-- The tail of `createShim` from the spawn on, with `ttyOpen` telling
whether a tty file is held (and hence `defer tty.Close()` registered
and run at every return from here on). -/
def createShimSpawn (options : RunvOptions) (w : ShimWorld)
    (cfg : CmdConfig) (pre : List LaunchEvent) (ttyOpen : Bool) :
    CreateShimRun :=
  let deferred : List LaunchEvent := if ttyOpen then [.closeTty] else []
  let startEv : LaunchEvent :=
    match options.withContainer with
    | none => .start
    | some pid => .startInNamespace pid
  if ¬ w.startOk then
    { result := .error "start failed"
      events := pre ++ [startEv] ++ deferred
      cmd := some cfg }
  else if options.pidFile ≠ "" then
    if ¬ w.pidFileOk then
      { result := .error "pid file error"
        events := pre ++ [startEv, .writePidFile options.pidFile w.childPid,
          .killChild w.childPid] ++ deferred
        cmd := some cfg }
    else
      { result := .ok w.childPid
        events := pre ++ [startEv, .writePidFile options.pidFile w.childPid] ++
          deferred
        cmd := some cfg }
  else
    { result := .ok w.childPid
      events := pre ++ [startEv] ++ deferred
      cmd := some cfg }

/-- The console-attachment step at the top of `createShim`: explicit
console device, pty pair over a console socket, or neither (inherit).
Returns whether a tty file is now held, plus the events so far; on
error, the events that happened before the failing return. -/
def consoleAttach (options : RunvOptions) (w : ShimWorld) :
    Except (String × List LaunchEvent) (Bool × List LaunchEvent) :=
  if options.console ≠ "" then
    if ¬ w.openConsoleOk then
      .error ("open console failed", [])
    else
      .ok (true, [.openConsole options.console])
  else if options.consoleSocket ≠ "" then
    if ¬ w.ptyOpenOk then
      .error ("pty open failed", [])
    else if ¬ w.sendttyOk then
      .error ("sendtty failed", [.ptyOpen, .sendtty options.consoleSocket])
    else
      .ok (true, [.ptyOpen, .sendtty options.consoleSocket, .closePtyMaster])
  else
    .ok (false, [])

/-- Binary/argument selection: the self-delegate `runv shim` variant
unless the configured agent is `"kata"`. -/
def prepareShimBinary (options : RunvOptions) (container process : String)
    (terminal : Bool) (w : ShimWorld) : Except String (String × List String) :=
  if options.agent ≠ "kata" then
    prepareRunvShim options container process terminal w
  else
    prepareKataShim options container process terminal

/-- `createShim` proper.  Console attachment knows three modes
(explicit device, pty over console socket, inherit); preparation picks
the delegate; the command gets `Setctty = (tty != nil)` and
`Setsid = (tty != nil || !options.attach)`; a fresh network namespace
(`CLONE_NEWNET`) is used when no existing container is given.  When
preparation fails, the `defer tty.Close()` of the source is not yet
registered, so the opened console file is left open on that path. -/
def createShim (options : RunvOptions) (container process : String)
    (spec : ProcessSpec) (w : ShimWorld) : CreateShimRun :=
  match consoleAttach options w with
  | .error (msg, evs) => { result := .error msg, events := evs, cmd := none }
  | .ok (hasTty, evs) =>
    match prepareShimBinary options container process spec.terminal w with
    | .error msg =>
      { result := .error msg, events := evs, cmd := none }
    | .ok (path, args) =>
      let cfg : CmdConfig :=
        { path := path
          args := args
          setctty := hasTty
          setsid := hasTty || !options.attach
          cloneNewNet := options.withContainer.isNone
          ttyAsStdio := hasTty }
      createShimSpawn options w cfg evs hasTty

/-- The signal number a buffered signal gets forwarded as, if any:
`syscall.Signal` values outside {SIGCHLD, SIGPIPE, SIGWINCH} are
forwarded, everything else is dropped. -/
def forwardableNumber : OsSignal → Option Nat
  | .sys n => if n = SIGCHLD ∨ n = SIGPIPE ∨ n = SIGWINCH then none else some n
  | .unknown _ => none

/-- Whether the console-attachment step of `createShim` succeeds. -/
def consoleAttachOk (options : RunvOptions) (w : ShimWorld) : Bool :=
  if options.console ≠ "" then w.openConsoleOk
  else if options.consoleSocket ≠ "" then w.ptyOpenOk && w.sendttyOk
  else true

/-- Whether the console-attachment step succeeds *and* leaves a tty
file held by `createShim`. -/
def ttyAttached (options : RunvOptions) (w : ShimWorld) : Bool :=
  if options.console ≠ "" then w.openConsoleOk
  else if options.consoleSocket ≠ "" then w.ptyOpenOk && w.sendttyOk
  else false

/-- Whether binary/argument preparation succeeds. -/
def prepareSucceeds (options : RunvOptions) (w : ShimWorld) : Bool :=
  if options.agent ≠ "kata" then w.executableOk else true

/-! ## Helper lemmas -/

theorem FS.lookup_set_self (fs : FS) (p : GoPath) (c : String) :
    (fs.set p c).lookup p = some c := by
  induction fs with
  | nil => simp [FS.set, FS.lookup]
  | cons hd tl ih =>
    obtain ⟨q, d⟩ := hd
    by_cases h : q = p
    · simp [FS.set, FS.lookup, h]
    · simp [FS.set, FS.lookup, h, ih]

theorem FS.lookup_set_other (fs : FS) (p q : GoPath) (c : String) (h : p ≠ q) :
    (fs.set p c).lookup q = fs.lookup q := by
  induction fs with
  | nil => simp [FS.set, FS.lookup, h]
  | cons hd tl ih =>
    obtain ⟨r, d⟩ := hd
    by_cases hr : r = p
    · subst hr
      simp [FS.set, FS.lookup, h]
    · simp [FS.set, FS.lookup, hr, ih]

theorem FS.lookup_remove_other (fs : FS) (p q : GoPath) (h : p ≠ q) :
    (fs.remove p).lookup q = fs.lookup q := by
  induction fs with
  | nil => simp [FS.remove, FS.lookup]
  | cons hd tl ih =>
    obtain ⟨r, d⟩ := hd
    by_cases hr : r = p
    · subst hr
      simp [FS.remove, FS.lookup, h, ih]
    · simp [FS.remove, FS.lookup, hr, ih]

theorem FS.lookup_remove_self (fs : FS) (p : GoPath) :
    (fs.remove p).lookup p = none := by
  induction fs with
  | nil => simp [FS.remove, FS.lookup]
  | cons hd tl ih =>
    obtain ⟨r, d⟩ := hd
    by_cases hr : r = p
    · simp [FS.remove, hr, ih]
    · simp [FS.remove, FS.lookup, hr, ih]

/-- The hidden temporary name differs from the target path: the base
name has one more character. -/
theorem tmpNameOf_ne (path : GoPath) : tmpNameOf path ≠ path := by
  intro h
  have hb : "." ++ path.base = path.base := congrArg GoPath.base h
  have hl : ("." ++ path.base).length = path.base.length := congrArg String.length hb
  rw [String.length_append] at hl
  have hdot : (".").length = 1 := rfl
  rw [hdot] at hl
  omega

theorem digitChar_isDigit {m : Nat} (h : m < 10) : (Nat.digitChar m).isDigit = true := by
  interval_cases m <;> decide

theorem toDigitsCore_all_isDigit (f : Nat) : ∀ (n : Nat) (acc : List Char),
    (∀ c ∈ acc, c.isDigit = true) →
    ∀ c ∈ Nat.toDigitsCore 10 f n acc, c.isDigit = true := by
  induction f with
  | zero =>
    intro n acc hacc c hc
    exact hacc c hc
  | succ f ih =>
    intro n acc hacc c hc
    simp only [Nat.toDigitsCore] at hc
    by_cases hz : n / 10 = 0
    · rw [if_pos hz] at hc
      rcases List.mem_cons.mp hc with h | h
      · subst h
        exact digitChar_isDigit (Nat.mod_lt n (by omega))
      · exact hacc c h
    · rw [if_neg hz] at hc
      refine ih (n / 10) _ ?_ c hc
      intro d hd
      rcases List.mem_cons.mp hd with h | h
      · subst h
        exact digitChar_isDigit (Nat.mod_lt n (by omega))
      · exact hacc d h

/-- Every character of `Nat.repr` (Go's `%d` on a nonnegative value) is
a decimal digit — in particular there is no trailing newline. -/
theorem repr_all_isDigit (n : Nat) : ∀ c ∈ (Nat.repr n).data, c.isDigit = true := by
  intro c hc
  have : (Nat.repr n).data = Nat.toDigits 10 n := rfl
  rw [this] at hc
  exact toDigitsCore_all_isDigit (n + 1) n [] (by intro d hd; cases hd) c hc

theorem forwardedNumbers_append (a b : List FwdEvent) :
    forwardedNumbers (a ++ b) = forwardedNumbers a ++ forwardedNumbers b := by
  simp [forwardedNumbers, List.filterMap_append]

/-- Aggregate behaviour of the forwarding loop: the sequence of
`SignalProcess` calls it makes is exactly the received sequence
restricted to translatable, non-suppressed signals — independent of
which forwards fail. -/
theorem forwardLoop_numbers (f : Nat → Bool) (l : List OsSignal) :
    forwardedNumbers (forwardLoop f l) = l.filterMap forwardableNumber := by
  induction l with
  | nil => rfl
  | cons s rest ih =>
    rw [forwardLoop, forwardedNumbers_append, ih]
    cases s with
    | sys n =>
      by_cases hex : n = SIGCHLD ∨ n = SIGPIPE ∨ n = SIGWINCH
      · simp [forwardLoopBody, forwardableNumber, hex, forwardedNumbers]
      · by_cases hf : f n = true
        · simp [forwardLoopBody, forwardableNumber, hex, hf, forwardedNumbers]
        · simp [forwardLoopBody, forwardableNumber, hex, hf, forwardedNumbers]
    | unknown name => simp [forwardLoopBody, forwardableNumber, forwardedNumbers]

theorem forwardableNumber_not_excluded {s : OsSignal} {n : Nat}
    (h : forwardableNumber s = some n) :
    ¬(n = SIGCHLD ∨ n = SIGPIPE ∨ n = SIGWINCH) := by
  cases s with
  | sys m =>
    simp only [forwardableNumber] at h
    by_cases hex : m = SIGCHLD ∨ m = SIGPIPE ∨ m = SIGWINCH
    · rw [if_pos hex] at h
      cases h
    · rw [if_neg hex] at h
      injection h with h
      subst h
      exact hex
  | unknown name => cases h

/-- Each iteration's events are among the whole loop's events. -/
theorem forwardLoopBody_subset (f : Nat → Bool) {s : OsSignal} {l : List OsSignal}
    (hs : s ∈ l) : ∀ e ∈ forwardLoopBody f s, e ∈ forwardLoop f l := by
  induction l with
  | nil => cases hs
  | cons hd rest ih =>
    intro e he
    rw [forwardLoop]
    rcases List.mem_cons.mp hs with h | h
    · subst h
      exact List.mem_append_left _ he
    · exact List.mem_append_right _ (ih h e he)

theorem consoleAttach_tty (options : RunvOptions) (w : ShimWorld)
    (h : ttyAttached options w = true) :
    ∃ evs, consoleAttach options w = Except.ok (true, evs) := by
  unfold ttyAttached at h
  unfold consoleAttach
  by_cases h1 : options.console ≠ ""
  · rw [if_pos h1] at h
    rw [if_pos h1, if_neg (by simp [h])]
    exact ⟨_, rfl⟩
  · by_cases h2 : options.consoleSocket ≠ ""
    · rw [if_neg h1, if_pos h2] at h
      rw [Bool.and_eq_true] at h
      rw [if_neg h1, if_pos h2, if_neg (by simp [h.1]), if_neg (by simp [h.2])]
      exact ⟨_, rfl⟩
    · rw [if_neg h1, if_neg h2] at h
      cases h

theorem consoleAttach_noTty (options : RunvOptions) (w : ShimWorld)
    (h1 : options.console = "") (h2 : options.consoleSocket = "") :
    consoleAttach options w = Except.ok (false, []) := by
  unfold consoleAttach
  rw [if_neg (by simp [h1]), if_neg (by simp [h2])]

theorem consoleAttachOk_cases (options : RunvOptions) (w : ShimWorld)
    (h : consoleAttachOk options w = true) :
    ttyAttached options w = true ∨
      (options.console = "" ∧ options.consoleSocket = "") := by
  unfold consoleAttachOk at h
  unfold ttyAttached
  by_cases h1 : options.console ≠ ""
  · left
    rw [if_pos h1] at h
    rw [if_pos h1]
    exact h
  · by_cases h2 : options.consoleSocket ≠ ""
    · left
      rw [if_neg h1, if_pos h2] at h
      rw [if_neg h1, if_pos h2]
      exact h
    · right
      exact ⟨not_ne_iff.mp h1, not_ne_iff.mp h2⟩

theorem consoleAttach_of_ok (options : RunvOptions) (w : ShimWorld)
    (h : consoleAttachOk options w = true) :
    ∃ t evs, consoleAttach options w = Except.ok (t, evs) := by
  rcases consoleAttachOk_cases options w h with ht | ⟨h1, h2⟩
  · obtain ⟨evs, he⟩ := consoleAttach_tty options w ht
    exact ⟨true, evs, he⟩
  · exact ⟨false, [], consoleAttach_noTty options w h1 h2⟩

theorem prepareShimBinary_ok (options : RunvOptions) (container process : String)
    (terminal : Bool) (w : ShimWorld) (h : prepareSucceeds options w = true) :
    ∃ p a, prepareShimBinary options container process terminal w =
      Except.ok (p, a) := by
  unfold prepareSucceeds at h
  unfold prepareShimBinary prepareRunvShim
  by_cases h1 : options.agent ≠ "kata"
  · rw [if_pos h1] at h
    rw [if_pos h1, if_neg (by simp [h])]
    exact ⟨_, _, rfl⟩
  · rw [if_neg h1]
    exact ⟨_, _, rfl⟩

theorem createShimSpawn_cmd (options : RunvOptions) (w : ShimWorld) (cfg : CmdConfig)
    (pre : List LaunchEvent) (t : Bool) :
    (createShimSpawn options w cfg pre t).cmd = some cfg := by
  unfold createShimSpawn
  split_ifs <;> rfl

theorem createShimSpawn_pid_failure (options : RunvOptions) (w : ShimWorld)
    (cfg : CmdConfig) (pre : List LaunchEvent) (t : Bool)
    (hstart : w.startOk = true) (hpf : options.pidFile ≠ "")
    (hfail : w.pidFileOk = false) :
    (createShimSpawn options w cfg pre t).result = Except.error "pid file error" ∧
    LaunchEvent.killChild w.childPid ∈ (createShimSpawn options w cfg pre t).events := by
  unfold createShimSpawn
  simp [hstart, hpf, hfail]

theorem createShimSpawn_start_failure (options : RunvOptions) (w : ShimWorld)
    (cfg : CmdConfig) (pre : List LaunchEvent) (t : Bool)
    (hstart : w.startOk = false) :
    (createShimSpawn options w cfg pre t).result = Except.error "start failed" ∧
    (t = true → LaunchEvent.closeTty ∈ (createShimSpawn options w cfg pre t).events) := by
  constructor
  · unfold createShimSpawn
    simp [hstart]
  · intro ht
    unfold createShimSpawn
    simp [hstart, ht]

theorem prepareShimBinary_fail (options : RunvOptions) (container process : String)
    (terminal : Bool) (w : ShimWorld) (h : prepareSucceeds options w = false) :
    prepareShimBinary options container process terminal w =
      Except.error "cannot find self executable path" := by
  unfold prepareSucceeds at h
  unfold prepareShimBinary prepareRunvShim
  by_cases h1 : options.agent ≠ "kata"
  · rw [if_pos h1] at h
    rw [if_pos h1, if_pos (by simp [h])]
  · rw [if_neg h1] at h
    cases h

/-- The events of a successful console attachment never include the
deferred tty close. -/
theorem consoleAttach_tty_no_close (options : RunvOptions) (w : ShimWorld)
    (h : ttyAttached options w = true) :
    ∃ evs, consoleAttach options w = Except.ok (true, evs) ∧
      LaunchEvent.closeTty ∉ evs := by
  unfold ttyAttached at h
  unfold consoleAttach
  by_cases h1 : options.console ≠ ""
  · rw [if_pos h1] at h
    rw [if_pos h1, if_neg (by simp [h])]
    exact ⟨_, rfl, by simp⟩
  · by_cases h2 : options.consoleSocket ≠ ""
    · rw [if_neg h1, if_pos h2] at h
      rw [Bool.and_eq_true] at h
      rw [if_neg h1, if_pos h2, if_neg (by simp [h.1]), if_neg (by simp [h.2])]
      exact ⟨_, rfl, by simp⟩
    · rw [if_neg h1, if_neg h2] at h
      cases h

/-- Evaluation of a successful `createPidFile` run: the exact result and
the exact sequence of intermediate filesystem states. -/
theorem createPidFile_run_eq (fs : FS) (path : GoPath) (pid : Nat)
    (hTmp : fs.lookup (tmpNameOf path) = none) :
    createPidFile fs path pid true =
      (Except.ok ((((fs.set (tmpNameOf path) "").set (tmpNameOf path)
          (Nat.repr pid)).remove (tmpNameOf path)).set path (Nat.repr pid)),
       [fs, fs.set (tmpNameOf path) "",
        (fs.set (tmpNameOf path) "").set (tmpNameOf path) (Nat.repr pid),
        (((fs.set (tmpNameOf path) "").set (tmpNameOf path)
          (Nat.repr pid)).remove (tmpNameOf path)).set path (Nat.repr pid)]) := by
  unfold createPidFile
  simp only [openExcl, rename, hTmp, FS.lookup_set_self]
  simp

/-! ## Claim theorems -/

/-- C1: the shim action performs the blocking wait-for-exit before
returning (the trace ends in the wait event followed only by deferred
teardown); with proxy-exit-code enabled its result is success for
remote exit code 0 and a nonzero exit error carrying the remote code
for any nonzero code; with the flag disabled the result is success for
every remote code. -/
theorem shim_exit_code_propagation (flags : ShimFlags) (process : String)
    (rawOk : Bool) (exitcode : Int)
    (hraw : flags.proxyWinsize = true → rawOk = true) :
    (∃ pre, (shimAction flags process true rawOk exitcode).1 =
        pre ++ [ShimEvent.waitProcess exitcode] ++ teardownSeg flags) ∧
    (flags.proxyExitCode = true → exitcode = 0 →
      (shimAction flags process true rawOk exitcode).2 = CliResult.ok) ∧
    (flags.proxyExitCode = true → exitcode ≠ 0 →
      (shimAction flags process true rawOk exitcode).2 =
        CliResult.exitError "" exitcode) ∧
    (flags.proxyExitCode = false →
      (shimAction flags process true rawOk exitcode).2 = CliResult.ok) := by
  have hcond : ¬(flags.proxyWinsize = true ∧ rawOk = false) := by
    rintro ⟨h1, h2⟩
    rw [hraw h1] at h2
    cases h2
  unfold shimAction
  rw [if_neg (by simp), if_neg hcond]
  refine ⟨⟨[ShimEvent.connectAgent] ++ initWaitSeg process ++ proxySeg flags,
    by simp⟩, ?_, ?_, ?_⟩
  · intro h1 h2
    simp [h1, h2]
  · intro h1 h2
    simp [h1, h2]
  · intro h1
    simp [h1]

theorem shim_exit_code_propagation_witness :
    (shimAction ⟨true, false, true, true⟩ "p" true true 137).2 =
      CliResult.exitError "" 137 :=
  (shim_exit_code_propagation ⟨true, false, true, true⟩ "p" true 137
    (fun _ => rfl)).2.2.1 rfl (by decide)

/-- C4: for process id "init" the shim (after a successful connect)
subscribes to SIGUSR1, blocks until exactly one such signal is
received, unsubscribes, and no proxy activity appears before the
receive event; for any other process id the wait never happens. -/
theorem shim_init_readiness_gate (flags : ShimFlags) (process : String)
    (rawOk : Bool) (exitcode : Int) :
    (process = "init" →
      ∃ pre post,
        (shimAction flags process true rawOk exitcode).1 =
          pre ++ [ShimEvent.subscribeSigUsr1, ShimEvent.recvSigUsr1,
            ShimEvent.unsubscribeSigUsr1] ++ post ∧
        (∀ e ∈ pre, isProxyActivity e = false) ∧
        ShimEvent.recvSigUsr1 ∉ pre ∧
        ShimEvent.recvSigUsr1 ∉ post) ∧
    (process ≠ "init" →
      ShimEvent.recvSigUsr1 ∉ (shimAction flags process true rawOk exitcode).1 ∧
      ShimEvent.subscribeSigUsr1 ∉ (shimAction flags process true rawOk exitcode).1) := by
  constructor
  · intro h
    unfold shimAction
    rw [if_neg (by simp)]
    by_cases hw : flags.proxyWinsize = true ∧ rawOk = false
    · rw [if_pos hw]
      refine ⟨[ShimEvent.connectAgent],
        (if flags.proxyStdio then [ShimEvent.startStdioProxy] else []) ++
          [ShimEvent.setRawTerminal] ++
          (if flags.proxyStdio then [ShimEvent.wgWait] else []), ?_, ?_, ?_, ?_⟩
      · simp [initWaitSeg, h]
      · intro e he
        simp at he
        subst he
        rfl
      · simp
      · cases hps : flags.proxyStdio <;> simp [hps]
    · rw [if_neg hw]
      refine ⟨[ShimEvent.connectAgent],
        proxySeg flags ++ [ShimEvent.waitProcess exitcode] ++ teardownSeg flags,
        ?_, ?_, ?_, ?_⟩
      · simp [initWaitSeg, h]
      · intro e he
        simp at he
        subst he
        rfl
      · simp
      · obtain ⟨ps, pw, psig, pec⟩ := flags
        cases ps <;> cases pw <;> cases psig <;>
          simp [proxySeg, teardownSeg]
  · intro h
    unfold shimAction
    rw [if_neg (by simp)]
    by_cases hw : flags.proxyWinsize = true ∧ rawOk = false
    · rw [if_pos hw]
      constructor <;>
        (cases hps : flags.proxyStdio <;> simp [initWaitSeg, h, hps])
    · rw [if_neg hw]
      constructor <;>
        (obtain ⟨ps, pw, psig, pec⟩ := flags
         cases ps <;> cases pw <;> cases psig <;>
           simp [initWaitSeg, proxySeg, teardownSeg, h])

theorem shim_init_readiness_gate_witness :
    ShimEvent.recvSigUsr1 ∉
      (shimAction ⟨true, false, true, true⟩ "exec-2" true true 0).1 :=
  ((shim_init_readiness_gate ⟨true, false, true, true⟩ "exec-2" true 0).2
    (by decide)).1

/-- C2: the forwarder subscribes all signals into a channel of
capacity 2048 with SIGCHLD and SIGPIPE suppressed from entering the
buffer; the consuming loop forwards exactly the translatable signals
outside {SIGCHLD, SIGPIPE, SIGWINCH}, once each, in receipt order;
unknown signals and forward failures are logged and neither stops the
loop nor changes what else is forwarded. -/
theorem forwardAllSignals_spec (agentOk : Nat → Bool) (delivered : List OsSignal) :
    forwardAllSignals_setup.capacity = 2048 ∧
    forwardAllSignals_setup.ignored = [SIGCHLD, SIGPIPE] ∧
    (∀ s ∈ bufferedSignals delivered,
      s ≠ OsSignal.sys SIGCHLD ∧ s ≠ OsSignal.sys SIGPIPE) ∧
    forwardedNumbers (forwardLoop agentOk (bufferedSignals delivered)) =
      (bufferedSignals delivered).filterMap forwardableNumber ∧
    SIGCHLD ∉ forwardedNumbers (forwardLoop agentOk (bufferedSignals delivered)) ∧
    SIGPIPE ∉ forwardedNumbers (forwardLoop agentOk (bufferedSignals delivered)) ∧
    SIGWINCH ∉ forwardedNumbers (forwardLoop agentOk (bufferedSignals delivered)) ∧
    (∀ name, OsSignal.unknown name ∈ bufferedSignals delivered →
      FwdEvent.logUnknown name ∈ forwardLoop agentOk (bufferedSignals delivered)) ∧
    (∀ n, OsSignal.sys n ∈ bufferedSignals delivered →
      ¬(n = SIGCHLD ∨ n = SIGPIPE ∨ n = SIGWINCH) → agentOk n = false →
      FwdEvent.logForwardError n ∈ forwardLoop agentOk (bufferedSignals delivered)) ∧
    (∀ g : Nat → Bool,
      forwardedNumbers (forwardLoop g (bufferedSignals delivered)) =
        forwardedNumbers (forwardLoop agentOk (bufferedSignals delivered))) := by
  refine ⟨rfl, rfl, ?_, forwardLoop_numbers agentOk (bufferedSignals delivered),
    ?_, ?_, ?_, ?_, ?_, ?_⟩
  · intro s hs
    constructor <;> rintro rfl <;>
      simp [bufferedSignals, List.mem_filter, SIGCHLD, SIGPIPE] at hs
  · intro hmem
    rw [forwardLoop_numbers] at hmem
    obtain ⟨s, _, hsome⟩ := List.mem_filterMap.mp hmem
    exact forwardableNumber_not_excluded hsome (Or.inl rfl)
  · intro hmem
    rw [forwardLoop_numbers] at hmem
    obtain ⟨s, _, hsome⟩ := List.mem_filterMap.mp hmem
    exact forwardableNumber_not_excluded hsome (Or.inr (Or.inl rfl))
  · intro hmem
    rw [forwardLoop_numbers] at hmem
    obtain ⟨s, _, hsome⟩ := List.mem_filterMap.mp hmem
    exact forwardableNumber_not_excluded hsome (Or.inr (Or.inr rfl))
  · intro name hn
    exact forwardLoopBody_subset agentOk hn _ (by simp [forwardLoopBody])
  · intro n hn hex hfail
    refine forwardLoopBody_subset agentOk hn _ ?_
    simp [forwardLoopBody, hex, hfail]
  · intro g
    rw [forwardLoop_numbers, forwardLoop_numbers]

theorem forwardAllSignals_spec_witness :
    forwardedNumbers (forwardLoop (fun _ => true)
      (bufferedSignals [OsSignal.sys 15, OsSignal.sys SIGCHLD, OsSignal.sys SIGWINCH,
        OsSignal.sys 9, OsSignal.unknown "odd"])) = [15, 9] := by
  have h := (forwardAllSignals_spec (fun _ => true)
    [OsSignal.sys 15, OsSignal.sys SIGCHLD, OsSignal.sys SIGWINCH,
      OsSignal.sys 9, OsSignal.unknown "odd"]).2.2.2.1
  rw [h]
  decide

/-- C3: the stdin loop sends exactly one close-stdin notification on
local end-of-input and never signals the wait group, while the
stdout and stderr loops each signal it exactly once; the owner's
`wg.Add(2)` therefore waits for exactly those two loops. -/
theorem proxyStdio_asymmetric_teardown (closeOk : Bool)
    (resIn resOut resErr : CopyEnd) :
    closeStdinCount (stdinGoroutine CopyEnd.eof closeOk) = 1 ∧
    wgDoneCount (stdinGoroutine resIn closeOk) = 0 ∧
    proxyStdio_wgAdd = 2 ∧
    wgDoneCount (stdoutGoroutine resOut) = 1 ∧
    wgDoneCount (stderrGoroutine resErr) = 1 ∧
    proxyStdio_wgAdd =
      wgDoneCount (stdoutGoroutine resOut) + wgDoneCount (stderrGoroutine resErr) :=
  ⟨rfl, rfl, rfl, rfl, rfl, rfl⟩

/-- C10: for every way the local-stdin copy can terminate — clean
end-of-input or a read/write error on either end — the stdin goroutine
makes exactly one close-stdin call to the agent. -/
theorem stdin_close_notification_once (res : CopyEnd) (closeOk : Bool) :
    closeStdinCount (stdinGoroutine res closeOk) = 1 :=
  rfl

/-- C5: `createPidFile` creates the dot-prefixed temporary in the
target's directory with exclusive-create semantics, writes the pid as
decimal digits with no newline, renames onto the target, and a reader
of the target path only ever sees its old content or the complete
final pid. -/
theorem createPidFile_atomic_write (fs : FS) (path : GoPath) (pid : Nat)
    (hTmp : fs.lookup (tmpNameOf path) = none) :
    (∃ final : FS,
      (createPidFile fs path pid true).1 = Except.ok final ∧
      final.lookup path = some (Nat.repr pid) ∧
      final.lookup (tmpNameOf path) = none) ∧
    (∀ st ∈ (createPidFile fs path pid true).2,
      st.lookup path = fs.lookup path ∨ st.lookup path = some (Nat.repr pid)) ∧
    (∀ c ∈ (Nat.repr pid).data, c.isDigit = true ∧ c ≠ '\n') ∧
    (∀ fs2 : FS, ∀ c : String, fs2.lookup (tmpNameOf path) = some c →
      (createPidFile fs2 path pid true).1 = Except.error "file exists" ∧
      (createPidFile fs2 path pid true).2 = [fs2]) := by
  have hne : tmpNameOf path ≠ path := tmpNameOf_ne path
  have hrun := createPidFile_run_eq fs path pid hTmp
  refine ⟨⟨_, by rw [hrun], FS.lookup_set_self _ _ _, ?_⟩, ?_, ?_, ?_⟩
  · rw [FS.lookup_set_other _ _ _ _ (fun h => hne h.symm)]
    exact FS.lookup_remove_self _ _
  · intro st hst
    rw [hrun] at hst
    simp only [List.mem_cons, List.not_mem_nil, or_false] at hst
    rcases hst with rfl | rfl | rfl | rfl
    · exact Or.inl rfl
    · exact Or.inl (FS.lookup_set_other _ _ _ _ hne)
    · refine Or.inl ?_
      rw [FS.lookup_set_other _ _ _ _ hne]
      exact FS.lookup_set_other _ _ _ _ hne
    · exact Or.inr (FS.lookup_set_self _ _ _)
  · intro c hc
    refine ⟨repr_all_isDigit pid c hc, ?_⟩
    intro hEq
    have h2 := repr_all_isDigit pid c hc
    rw [hEq] at h2
    exact absurd h2 (by decide)
  · intro fs2 c hc
    constructor <;> simp [createPidFile, openExcl, hc]

theorem createPidFile_atomic_write_witness :
    ∃ final : FS,
      (createPidFile [] ⟨"/run/runv", "shim.pid"⟩ 42 true).1 = Except.ok final ∧
      final.lookup ⟨"/run/runv", "shim.pid"⟩ = some (Nat.repr 42) ∧
      final.lookup (tmpNameOf ⟨"/run/runv", "shim.pid"⟩) = none :=
  (createPidFile_atomic_write [] ⟨"/run/runv", "shim.pid"⟩ 42 rfl).1

/-- C6 counterexample: with the target pid file already present (and
the temporary name absent) `createPidFile` does not fail — it succeeds
and replaces the target, so a second successful creation onto the same
path is possible. -/
theorem createPidFile_existing_target_cx :
    (createPidFile [(⟨"/run", "c.pid"⟩, "41")] ⟨"/run", "c.pid"⟩ 42 true).1 =
      Except.ok [(⟨"/run", "c.pid"⟩, "42")] := by
  decide

/-- C6 (amended): the exclusive-create check is on the hidden
temporary name only — `createPidFile` errors when the temporary file
already exists, while an existing target pid file is simply replaced
by the final rename. -/
theorem createPidFile_excl_temp_only (fs : FS) (path : GoPath) (pid : Nat) :
    ((∃ c, fs.lookup (tmpNameOf path) = some c) →
      (createPidFile fs path pid true).1 = Except.error "file exists") ∧
    (fs.lookup (tmpNameOf path) = none →
      ∃ final : FS, (createPidFile fs path pid true).1 = Except.ok final ∧
        final.lookup path = some (Nat.repr pid)) := by
  constructor
  · rintro ⟨c, hc⟩
    simp [createPidFile, openExcl, hc]
  · intro h
    rw [createPidFile_run_eq fs path pid h]
    exact ⟨_, rfl, FS.lookup_set_self _ _ _⟩

theorem createPidFile_excl_temp_only_witness :
    (createPidFile [(tmpNameOf ⟨"/run", "c.pid"⟩, "")] ⟨"/run", "c.pid"⟩ 42 true).1 =
      Except.error "file exists" :=
  (createPidFile_excl_temp_only [(tmpNameOf ⟨"/run", "c.pid"⟩, "")]
    ⟨"/run", "c.pid"⟩ 42).1 ⟨"", by decide⟩

/-- C7: when a pid-file path is configured, the child was spawned, and
pid persistence fails, `createShim` kills the spawned child and
returns the error — no orphan survives a failing run. -/
theorem createShim_no_orphan_on_pid_failure (options : RunvOptions)
    (container process : String) (spec : ProcessSpec) (w : ShimWorld)
    (hca : consoleAttachOk options w = true)
    (hp : prepareSucceeds options w = true)
    (hstart : w.startOk = true)
    (hpidfile : options.pidFile ≠ "")
    (hfail : w.pidFileOk = false) :
    (createShim options container process spec w).result =
      Except.error "pid file error" ∧
    LaunchEvent.killChild w.childPid ∈
      (createShim options container process spec w).events := by
  obtain ⟨t, evs, hce⟩ := consoleAttach_of_ok options w hca
  obtain ⟨p, a, hpe⟩ := prepareShimBinary_ok options container process spec.terminal w hp
  unfold createShim
  rw [hce, hpe]
  exact createShimSpawn_pid_failure options w _ evs t hstart hpidfile hfail

theorem createShim_no_orphan_witness :
    LaunchEvent.killChild 7 ∈
      (createShim ⟨"", "", "kata", "/r", "", false, false, none, "/run/p.pid"⟩
        "c" "p" ⟨false⟩ ⟨true, true, true, true, "/self", true, 7, false⟩).events :=
  (createShim_no_orphan_on_pid_failure
    ⟨"", "", "kata", "/r", "", false, false, none, "/run/p.pid"⟩ "c" "p" ⟨false⟩
    ⟨true, true, true, true, "/self", true, 7, false⟩
    (by decide) (by decide) rfl (by decide) rfl).2

/-- C8: the command built by `createShim` gets both the
controlling-tty and the new-session attribute whenever a tty file is
in use, and otherwise becomes a session leader exactly when the launch
is not attached. -/
theorem createShim_session_policy (options : RunvOptions)
    (container process : String) (spec : ProcessSpec) (w : ShimWorld)
    (cfg : CmdConfig)
    (h : (createShim options container process spec w).cmd = some cfg) :
    (cfg.ttyAsStdio = true → cfg.setctty = true ∧ cfg.setsid = true) ∧
    (cfg.ttyAsStdio = false →
      cfg.setctty = false ∧ (cfg.setsid = true ↔ options.attach = false)) := by
  unfold createShim at h
  cases hce : consoleAttach options w with
  | error e =>
    rw [hce] at h
    obtain ⟨msg, evs⟩ := e
    simp at h
  | ok pr =>
    obtain ⟨t, evs⟩ := pr
    rw [hce] at h
    cases hpe : prepareShimBinary options container process spec.terminal w with
    | error msg =>
      rw [hpe] at h
      simp at h
    | ok pa =>
      obtain ⟨p, a⟩ := pa
      rw [hpe] at h
      simp only [createShimSpawn_cmd, Option.some.injEq] at h
      subst h
      constructor
      · intro ht
        simp only at ht
        subst ht
        exact ⟨rfl, rfl⟩
      · intro ht
        simp only at ht
        subst ht
        refine ⟨rfl, ?_⟩
        cases ha : options.attach <;> simp

theorem createShim_session_policy_witness :
    ({ path := "/usr/libexec/kata-containers/kata-shim",
       args := ["kata-shim", "--agent", "/r/c/sandbox/kata-agent.sock",
         "--container", "c", "--exec-id", "p", "--terminal"],
       setctty := true, setsid := true, cloneNewNet := true,
       ttyAsStdio := true } : CmdConfig).setctty = true ∧
    ({ path := "/usr/libexec/kata-containers/kata-shim",
       args := ["kata-shim", "--agent", "/r/c/sandbox/kata-agent.sock",
         "--container", "c", "--exec-id", "p", "--terminal"],
       setctty := true, setsid := true, cloneNewNet := true,
       ttyAsStdio := true } : CmdConfig).setsid = true :=
  (createShim_session_policy ⟨"/dev/ttyS0", "", "kata", "/r", "", false, true, none, ""⟩
    "c" "p" ⟨true⟩ ⟨true, true, true, true, "/self", true, 7, true⟩
    { path := "/usr/libexec/kata-containers/kata-shim",
      args := ["kata-shim", "--agent", "/r/c/sandbox/kata-agent.sock",
        "--container", "c", "--exec-id", "p", "--terminal"],
      setctty := true, setsid := true, cloneNewNet := true,
      ttyAsStdio := true }
    (by decide)).1 rfl

/-- C9 counterexample: binary/argument preparation fails after the
explicit console device was opened, and `createShim` returns the error
without closing the opened console file. -/
theorem createShim_console_leak_cx :
    ((createShim ⟨"/dev/console9", "", "runv", "/r", "", false, false, none, ""⟩
        "c" "p" ⟨false⟩
        ⟨true, true, true, false, "/self", true, 7, true⟩).result =
      Except.error "cannot find self executable path") ∧
    LaunchEvent.openConsole "/dev/console9" ∈
      (createShim ⟨"/dev/console9", "", "runv", "/r", "", false, false, none, ""⟩
        "c" "p" ⟨false⟩
        ⟨true, true, true, false, "/self", true, 7, true⟩).events ∧
    LaunchEvent.closeTty ∉
      (createShim ⟨"/dev/console9", "", "runv", "/r", "", false, false, none, ""⟩
        "c" "p" ⟨false⟩
        ⟨true, true, true, false, "/self", true, 7, true⟩).events := by
  decide

/-- C9 (amended): when the spawn (or namespace entry) fails after a
console tty was attached, the deferred close releases the tty before
the error is returned; but a failure during binary/argument
preparation returns the error with the already-opened console file
still open. -/
theorem createShim_console_release (options : RunvOptions)
    (container process : String) (spec : ProcessSpec) (w : ShimWorld) :
    (ttyAttached options w = true → prepareSucceeds options w = true →
      w.startOk = false →
      (createShim options container process spec w).result =
        Except.error "start failed" ∧
      LaunchEvent.closeTty ∈ (createShim options container process spec w).events) ∧
    (ttyAttached options w = true → prepareSucceeds options w = false →
      (∃ msg, (createShim options container process spec w).result =
        Except.error msg) ∧
      LaunchEvent.closeTty ∉ (createShim options container process spec w).events) := by
  constructor
  · intro htty hp hstart
    obtain ⟨evs, hce⟩ := consoleAttach_tty options w htty
    obtain ⟨p, a, hpe⟩ :=
      prepareShimBinary_ok options container process spec.terminal w hp
    unfold createShim
    rw [hce, hpe]
    exact ⟨(createShimSpawn_start_failure options w _ evs true hstart).1,
      (createShimSpawn_start_failure options w _ evs true hstart).2 rfl⟩
  · intro htty hp
    obtain ⟨evs, hce, hnc⟩ := consoleAttach_tty_no_close options w htty
    have hpe := prepareShimBinary_fail options container process spec.terminal w hp
    unfold createShim
    rw [hce, hpe]
    exact ⟨⟨_, rfl⟩, hnc⟩

theorem createShim_console_release_witness :
    LaunchEvent.closeTty ∈
      (createShim ⟨"/dev/c", "", "kata", "/r", "", false, false, none, ""⟩
        "c" "p" ⟨false⟩ ⟨true, true, true, true, "/self", false, 7, true⟩).events :=
  ((createShim_console_release ⟨"/dev/c", "", "kata", "/r", "", false, false, none, ""⟩
    "c" "p" ⟨false⟩ ⟨true, true, true, true, "/self", false, 7, true⟩).1
    (by decide) (by decide) rfl).2

end RunvShim
